import Mathlib

/-!
Verification of the gemini-to-openai-proxy translation layer.

The definitions below are a shallow embedding of the Go sources:
  * `pkg/openai/types.go`  — request/response record types,
  * `pkg/openai/gemini.go` — the two format-conversion functions,
  * `main.go`              — the embeddings handler (round-robin client
    selection, validation outcomes, the type
    assertion) and the models handler (capability filter).

Modelling conventions:
  * Values of the Go `interface{}` type, as produced by `encoding/json.Unmarshal`,
    are the inductive `GoValue` (string, number, bool, null, array,
    object); `goTypeName` mirrors the `%T` format verb on such a value.
  * `float32` scalars inside embedding vectors are only ever copied
    verbatim, so they are modelled as an uninterpreted carrier with
    decidable equality (`Float32 := Int`); their numeric meaning is
    never used.
  * The shared `atomic.Int32` counter is an `Int` constrained to the
    int32 range by `int32Wrap`, with the Go wraparound addition
    (`int32Add`) and the Go truncated remainder (`Int.tmod`).
  * Fallible Go code returns `Except`; a run-time panic (failed
    single-return type assertion, out-of-range slice index) is the
    explicit outcome `HandlerOutcome.panicked`.
-/

/-- A decoded JSON value held in a Go `interface{}`, as produced by
`encoding/json.Unmarshal` into the `Input interface{}` field. Numbers
decode to `float64` in Go; their numeric payload is never inspected by
the proxy, so it is carried as an `Int`. Object payloads are likewise
never inspected, so they are not carried at all. -/
inductive GoValue where
  | vNull
  | vBool (b : Bool)
  | vNumber (n : Int)
  | vString (s : String)
  | vArr (xs : List GoValue)
  | vObj

/-- The Go `%T` format verb applied to an `interface{}` holding a decoded JSON
value. -/
def goTypeName : GoValue → String
  | .vNull => "<nil>"
  | .vBool _ => "bool"
  | .vNumber _ => "float64"
  | .vString _ => "string"
  | .vArr _ => "[]interface \x7b\x7d"
  | .vObj => "map[string]interface \x7b\x7d"

/-- Uninterpreted carrier for the `float32` scalars in embedding
vectors; the proxy only copies them verbatim. -/
abbrev Float32 := Int

/-- Model of `openai.EmbedRequest` (types.go). `encodingFormat` is `""` when the
field is absent (`omitempty`); `input` is the raw decoded JSON value. -/
structure EmbedRequest where
  input : GoValue
  model : String
  encodingFormat : String
  dimensions : Int := 0
  user : String := ""

/-- Model of `openai.EmbedResponseData` (types.go). The index written by the
conversion loop is the loop counter of `range`, a nonnegative Go `int`,
modelled as `Nat`. -/
structure EmbedResponseData where
  object : String
  embedding : List Float32
  index : Nat
deriving DecidableEq, Repr

/-- Model of `openai.Usage` (types.go). -/
structure Usage where
  promptTokens : Int
  totalTokens : Int
deriving DecidableEq, Repr

/-- Model of `openai.EmbedResponse` (types.go). The Go struct holds pointers to
`EmbedResponseData` and `Usage`; the conversion function always
allocates them, so they are modelled by value. -/
structure EmbedResponse where
  object : String
  data : List EmbedResponseData
  model : String
  usage : Usage
deriving DecidableEq, Repr

/-- Model of `genai.ContentEmbedding`: one upstream vector (`Values []float32`). -/
structure ContentEmbedding where
  values : List Float32
deriving DecidableEq, Repr

/-- Model of `genai.BatchEmbedContentsResponse`: the upstream batch result. -/
structure BatchEmbedContentsResponse where
  embeddings : List ContentEmbedding
deriving DecidableEq, Repr

/-- The two error shapes `ConvertOpenAIRequestToGemini` can produce
(gemini.go lines 10, 22, 26): `errors.New("unsupported encoding
format")` and `errors.Errorf("unsupported input type: %T", ·)`, the
latter carrying the type name that `%T` printed. -/
inductive ConvError where
  | unsupportedEncodingFormat
  | unsupportedInputType (typeName : String)
deriving DecidableEq, Repr

/-- The sequence branch of `ConvertOpenAIRequestToGemini` (gemini.go
lines 17–24): iterate over the decoded array, appending each string
element to the batch. On a non-string element the code evaluates
`errors.Errorf("unsupported input type: %T", t)` where `t` is the
*zero-valued `string`* left by the failed assertion `t, ok :=
text.(string)`; `%T` of that value is always `"string"`, which is
modelled faithfully here as `goTypeName (.vString "")`. -/
def addContents : List GoValue → List String → Except ConvError (List String)
  | [], acc => .ok acc
  | text :: rest, acc =>
    match text with
    | .vString t => addContents rest (acc ++ [t])
    | _ => .error (.unsupportedInputType (goTypeName (GoValue.vString "")))

/-- Model of `openai.ConvertOpenAIRequestToGemini` (gemini.go lines 8–30). The
returned batch is the ordered list of text items added via
`AddContent(genai.Text ·)`; the `model` handle argument is used only to
construct the empty batch and is not modelled. -/
def ConvertOpenAIRequestToGemini (openAIReq : EmbedRequest) :
    Except ConvError (List String) :=
  if openAIReq.encodingFormat ≠ "" ∧ openAIReq.encodingFormat ≠ "float" then
    .error .unsupportedEncodingFormat
  else
    match openAIReq.input with
    | .vString v => .ok [v]
    | .vArr v => addContents v []
    | other => .error (.unsupportedInputType (goTypeName other))

/-- The `for i, geminiResp := range geminiBatchResp.Embeddings` loop of
`ConvertGeminiResponseToOpenAI` (gemini.go lines 38–44), appending one
`EmbedResponseData` per vector with the running index. -/
def embedDataLoop : List ContentEmbedding → Nat → List EmbedResponseData
  | [], _ => []
  | e :: rest, i =>
    { object := "embedding", embedding := e.values, index := i } ::
      embedDataLoop rest (i + 1)

/-- Model of `openai.ConvertGeminiResponseToOpenAI` (gemini.go lines 32–52). It
has no error return and performs no partial operation, so it is total
by construction. -/
def ConvertGeminiResponseToOpenAI (geminiBatchResp : BatchEmbedContentsResponse)
    (model : String) : EmbedResponse :=
  { object := "list"
    model := model
    data := embedDataLoop geminiBatchResp.embeddings 0
    usage := { promptTokens := 0, totalTokens := 0 } }

/-- Reduce an integer into the `int32` range `[-2^31, 2^31)`, as the Go two-complement wraparound does on `atomic.Int32` and on `int32(·)`
conversions. -/
def int32Wrap (x : Int) : Int := (x + 2 ^ 31) % 2 ^ 32 - 2 ^ 31

/-- Go `int32` addition with wraparound (`atomic.Int32.Add`). -/
def int32Add (a b : Int) : Int := int32Wrap (a + b)

/-- The client selection of the embeddings handler (main.go line 492):
`useIndex := currentClient.Add(1) % int32(len(geminiClients))`.
`Add(1)` returns the *new* counter value; the Go `%` operator on `int32` is the
truncated remainder `Int.tmod`. Returns `(useIndex, new counter)`. -/
def selectClient (counter : Int) (nClients : Nat) : Int × Int :=
  let c := int32Add counter 1
  (Int.tmod c (int32Wrap (Int.ofNat nClients)), c)

/-- Iterated client selection: `k` consecutive selections against a shared counter:
returns the list of selected indices in order and the final counter. -/
def selectSeq : Nat → Int → Nat → List Int × Int
  | 0, counter, _ => ([], counter)
  | k + 1, counter, nClients =>
    let p := selectClient counter nClients
    let q := selectSeq k p.2 nClients
    (p.1 :: q.1, q.2)

/-- The upstream `BatchEmbedContents` call, abstracted as an oracle:
either a batch result or an error. -/
inductive UpstreamResult where
  | ok (resp : BatchEmbedContentsResponse)
  | err

/-- Observable outcome of one run of the embeddings handler.
`panicked` models a Go run-time panic: an out-of-range index into
`geminiClients` (main.go line 495) or the failed single-return type
assertion `openAIReq.Input.([]interface{})` at the batch-size metric
(main.go line 525). -/
inductive HandlerOutcome where
  | methodNotAllowed
  | badRequest
  | internalServerError
  | panicked
  | ok (resp : EmbedResponse)
deriving DecidableEq

/-- Model of `embeddingsHandler` (main.go lines 447–542), reduced to its
decision structure. `decoded` is the result of reading and
unmarshalling the body (`none` = unreadable body or malformed JSON,
both answered 400 before the counter is touched). The counter is
incremented once the request is decoded, *before* conversion, so it
also advances on conversion failures — as in the source. Logging and
metric observations other than the line-525 type assertion have no
observable effect and are not modelled. Returns the outcome and the
new counter value. -/
def embeddingsHandler (method : String) (decoded : Option EmbedRequest)
    (nClients : Nat) (counter : Int) (upstream : UpstreamResult) :
    HandlerOutcome × Int :=
  if method ≠ "POST" then (.methodNotAllowed, counter)
  else
    match decoded with
    | none => (.badRequest, counter)
    | some openAIReq =>
      let c := int32Add counter 1
      let useIndex := Int.tmod c (int32Wrap (Int.ofNat nClients))
      if useIndex < 0 ∨ Int.ofNat nClients ≤ useIndex then (.panicked, c)
      else
        match ConvertOpenAIRequestToGemini openAIReq with
        | .error _ => (.badRequest, c)
        | .ok _ =>
          match upstream with
          | .err => (.internalServerError, c)
          | .ok geminiBatchResp =>
            let openAIResp :=
              ConvertGeminiResponseToOpenAI geminiBatchResp openAIReq.model
            match openAIReq.input with
            | .vArr _ => (.ok openAIResp, c)
            | _ => (.panicked, c)

/-- One entry of the upstream model catalog (`genai.ModelInfo`): the
resource name and the advertised generation methods. -/
structure ModelInfo where
  name : String
  supportedGenerationMethods : List String

/-- Model of `openai.ModelResponseData` (types.go). -/
structure ModelResponseData where
  object : String
  id : String
  created : Nat
  ownedBy : String
deriving DecidableEq, Repr

/-- Model of `openai.ModelResponse` (types.go). -/
structure ModelResponse where
  object : String
  data : List ModelResponseData
deriving DecidableEq, Repr

/-- The catalog-draining loop of `modelsHandler` (main.go lines
565–586): skip models whose `SupportedGenerationMethods` does not
contain `"embedContent"`, append a `ModelResponseData` for the rest. -/
def modelsLoop : List ModelInfo → List ModelResponseData → List ModelResponseData
  | [], acc => acc
  | m :: rest, acc =>
    if m.supportedGenerationMethods.contains "embedContent" then
      modelsLoop rest
        (acc ++ [{ object := "model", id := m.name, created := 0, ownedBy := "google" }])
    else
      modelsLoop rest acc

/-- Observable outcome of one run of the models handler. -/
inductive ModelsOutcome where
  | methodNotAllowed
  | internalServerError
  | ok (resp : ModelResponse)
deriving DecidableEq

/-- Model of `modelsHandler` (main.go lines 544–605), reduced to its decision
structure. `enumeration` abstracts draining the upstream iterator:
either the full catalog in order, or an enumeration error (which
discards any partially collected entries and answers 500). -/
def modelsHandler (method : String) (enumeration : Except Unit (List ModelInfo)) :
    ModelsOutcome :=
  if method ≠ "GET" then .methodNotAllowed
  else
    match enumeration with
    | .error _ => .internalServerError
    | .ok catalog => .ok { object := "list", data := modelsLoop catalog [] }

lemma pow31 : (2 : Int) ^ 31 = 2147483648 := by norm_num

lemma pow32 : (2 : Int) ^ 32 = 4294967296 := by norm_num

lemma int32Wrap_eq_self {x : Int} (h1 : -2 ^ 31 ≤ x) (h2 : x < 2 ^ 31) :
    int32Wrap x = x := by
  unfold int32Wrap
  rw [pow31] at *
  rw [Int.emod_eq_of_lt (by omega) (by rw [pow32]; omega)]
  omega

lemma int32Wrap_ofNat {n : Nat} (h : (n : Int) < 2 ^ 31) :
    int32Wrap (Int.ofNat n) = (n : Int) := by
  rw [Int.ofNat_eq_natCast]
  have h0 : (0 : Int) ≤ (n : Int) := Int.ofNat_nonneg n
  exact int32Wrap_eq_self (by rw [pow31] at *; omega) h


lemma addContents_ok (xs : List String) (acc : List String) :
    addContents (xs.map GoValue.vString) acc = .ok (acc ++ xs) := by
  induction xs generalizing acc with
  | nil => simp [addContents]
  | cons x rest ih => simp [addContents, ih]

lemma addContents_ne_format (l : List GoValue) (acc : List String) :
    addContents l acc ≠ .error .unsupportedEncodingFormat := by
  induction l generalizing acc with
  | nil => simp [addContents]
  | cons x rest ih =>
    cases x <;> simp only [addContents, goTypeName] <;> first
      | apply ih
      | simp

lemma embedDataLoop_length (l : List ContentEmbedding) (i : Nat) :
    (embedDataLoop l i).length = l.length := by
  induction l generalizing i with
  | nil => rfl
  | cons e rest ih => simp [embedDataLoop, ih]

lemma embedDataLoop_get (l : List ContentEmbedding) (i j : Nat) (e : ContentEmbedding)
    (h : l.get? j = some e) :
    (embedDataLoop l i).get? j
      = some { object := "embedding", embedding := e.values, index := i + j } := by
  induction l generalizing i j with
  | nil => simp at h
  | cons hd rest ih =>
    cases j with
    | zero => simp_all [embedDataLoop]
    | succ j' =>
      simp only [List.get?_cons_succ] at h
      have := ih (i + 1) j' h
      simp only [embedDataLoop, List.get?_cons_succ, this]
      congr 2
      omega

lemma selectClient_no_overflow {n : Nat} {counter : Int}
    (hn : 1 ≤ n) (hn2 : (n : Int) < 2 ^ 31) (hc : 0 ≤ counter) (hc2 : counter + 1 < 2 ^ 31) :
    selectClient counter n = ((counter + 1) % (n : Int), counter + 1) := by
  unfold selectClient int32Add
  have h1 : int32Wrap (counter + 1) = counter + 1 :=
    int32Wrap_eq_self (by rw [pow31]; omega) hc2
  have h2 : int32Wrap (Int.ofNat n) = (n : Int) := int32Wrap_ofNat hn2
  rw [h1, h2]
  show ((counter + 1).tmod (n : Int), counter + 1) = _
  rw [Int.tmod_eq_emod (by omega) (by omega)]


lemma int32Wrap_natCast {n : Nat} (h : (n : Int) < 2 ^ 31) :
    int32Wrap ((n : Int)) = (n : Int) := by
  have h0 : (0 : Int) ≤ (n : Int) := Int.ofNat_nonneg n
  exact int32Wrap_eq_self (by rw [pow31] at *; omega) h

lemma int32Add_one {counter : Int} (hc : 0 ≤ counter) (hc2 : counter + 1 < 2 ^ 31) :
    int32Add counter 1 = counter + 1 := by
  unfold int32Add
  exact int32Wrap_eq_self (by rw [pow31]; omega) hc2

lemma embeddingsHandler_conv_error {openAIReq : EmbedRequest} {e : ConvError}
    {n : Nat} {counter : Int} (upstream : UpstreamResult)
    (hconv : ConvertOpenAIRequestToGemini openAIReq = .error e)
    (hn : 1 ≤ n) (hn2 : (n : Int) < 2 ^ 31) (hc : 0 ≤ counter)
    (hc2 : counter + 1 < 2 ^ 31) :
    embeddingsHandler "POST" (some openAIReq) n counter upstream
      = (.badRequest, counter + 1) := by
  have hnpos : (0 : Int) < (n : Int) := by exact_mod_cast hn
  have hmod : Int.tmod (counter + 1) ((n : Int)) = (counter + 1) % (n : Int) :=
    Int.tmod_eq_emod (by omega) (by omega)
  have hge : 0 ≤ (counter + 1) % (n : Int) :=
    Int.emod_nonneg _ (by omega)
  have hlt : (counter + 1) % (n : Int) < (n : Int) :=
    Int.emod_lt_of_pos _ hnpos
  simp only [embeddingsHandler, Int.ofNat_eq_natCast, int32Add_one hc hc2,
    int32Wrap_natCast hn2, hmod, hconv]
  rw [if_neg (by decide), if_neg (by omega)]


/-- C1 (amended): for a pool of size `N ≥ 1` (with `N < 2^31`) and `K`
consecutive selections starting from counter value `start` with
`0 ≤ start` and `start + K < 2^31` (so the int32 counter does not
overflow), the selected client indices are exactly
`[(start+1) % N, ..., (start+K) % N]` and the final counter equals
`start + K` — consistent with exactly `K` increments. Each increment is
a single atomic `Add`, so any concurrent interleaving of the `K`
selections is one of the sequential orders modelled here. -/
theorem selectSeq_roundRobin_of_no_overflow
    (n k : Nat) (start : Int) (hn : 1 ≤ n) (hn2 : (n : Int) < 2 ^ 31)
    (hc : 0 ≤ start) (hk : start + k < 2 ^ 31) :
    (selectSeq k start n).1
      = (List.range k).map (fun j : Nat => (start + 1 + (j : Int)) % (n : Int)) ∧
    (selectSeq k start n).2 = start + k := by
  induction k generalizing start with
  | zero => simp [selectSeq]
  | succ k ih =>
    have hk1 : start + 1 < 2 ^ 31 := by
      have : ((k : Int) + 1) = ((k + 1 : Nat) : Int) := by push_cast; ring
      omega
    have hsel : selectClient start n = ((start + 1) % (n : Int), start + 1) :=
      selectClient_no_overflow hn hn2 hc hk1
    have hk' : (start + 1) + (k : Int) < 2 ^ 31 := by
      have : ((k : Int) + 1) = ((k + 1 : Nat) : Int) := by push_cast; ring
      omega
    obtain ⟨ih1, ih2⟩ := ih (start + 1) (by omega) hk'
    refine ⟨?_, ?_⟩
    · simp only [selectSeq, hsel, ih1, List.range_succ_eq_map, List.map_cons,
        List.map_map]
      congr 1
      · norm_num
      · apply List.map_congr_left
        intro j hj
        simp only [Function.comp]
        push_cast
        ring_nf
    · simp only [selectSeq, hsel, ih2]
      push_cast
      ring


/-- C1 counterexample: the claim does not hold for *every* starting
counter value. At `start = 2^31 - 1` with a pool of size 3, `Add(1)`
wraps the int32 counter to `-2^31` and the Go truncated remainder
yields index `-2` (which then crashes the slice access), not
`(start + 1) % 3 = 2`. -/
theorem selectClient_overflow_counterexample :
    (selectSeq 1 (2 ^ 31 - 1) 3).1 = [(-2 : Int)] ∧
    [((2 ^ 31 - 1 : Int) + 1) % 3] = [(2 : Int)] ∧
    (selectSeq 1 (2 ^ 31 - 1) 3).1 ≠ [((2 ^ 31 - 1 : Int) + 1) % 3] := by
  refine ⟨by decide, by decide, by decide⟩

/-- Witness for C1 (amended): pool of size 3, 4 selections from
counter 0 return indices `[1, 2, 0, 1]` and final counter 4. -/
theorem selectSeq_roundRobin_witness :
    (selectSeq 4 0 3).1
      = (List.range 4).map (fun j : Nat => ((0 : Int) + 1 + (j : Int)) % (3 : Int)) ∧
    (selectSeq 4 0 3).2 = 0 + (4 : Nat) :=
  selectSeq_roundRobin_of_no_overflow 3 4 0 (by decide) (by decide) (by decide)
    (by decide)

/-- C2: a request whose input is a sequence of `N` strings converts to
a batch of exactly those `N` text items in input order, and the
response built from the corresponding `N`-vector upstream result has
exactly `N` embeddings whose entry at each position `j` carries
index `j`. -/
theorem convert_seq_batch_and_indices
    (xs : List String) (m ef : String) (embs : List ContentEmbedding)
    (hef : ef = "" ∨ ef = "float") (hlen : embs.length = xs.length) :
    ConvertOpenAIRequestToGemini
        { input := .vArr (xs.map GoValue.vString), model := m, encodingFormat := ef }
      = .ok xs ∧
    (ConvertGeminiResponseToOpenAI { embeddings := embs } m).data.length = xs.length ∧
    (∀ j e, embs.get? j = some e →
      (ConvertGeminiResponseToOpenAI { embeddings := embs } m).data.get? j
        = some { object := "embedding", embedding := e.values, index := j }) := by
  refine ⟨?_, ?_, ?_⟩
  · unfold ConvertOpenAIRequestToGemini
    rw [if_neg (by rcases hef with h | h <;> simp [h])]
    simpa using addContents_ok xs []
  · unfold ConvertGeminiResponseToOpenAI
    simp [embedDataLoop_length, hlen]
  · intro j e hj
    unfold ConvertGeminiResponseToOpenAI
    simpa using embedDataLoop_get embs 0 j e hj

/-- Witness for C2 at the two-string input `["a", "b"]`. -/
theorem convert_seq_batch_and_indices_witness :
    ConvertOpenAIRequestToGemini
        { input := .vArr (["a", "b"].map GoValue.vString), model := "m",
          encodingFormat := "" }
      = .ok ["a", "b"] ∧
    (ConvertGeminiResponseToOpenAI
        { embeddings := [{ values := [1] }, { values := [2, 3] }] } "m").data.length = 2 ∧
    (ConvertGeminiResponseToOpenAI
        { embeddings := [{ values := [1] }, { values := [2, 3] }] } "m").data.get? 1
      = some { object := "embedding", embedding := [2, 3], index := 1 } := by
  have h := convert_seq_batch_and_indices ["a", "b"] "m" ""
    [{ values := [1] }, { values := [2, 3] }] (Or.inl rfl) (by decide)
  exact ⟨h.1, h.2.1, h.2.2 1 { values := [2, 3] } (by decide)⟩


/-- C3: `ConvertGeminiResponseToOpenAI` is total by construction (it
is a plain function, mirroring a Go function with no error return and
no partial operation), and for every upstream batch result and model
name it returns a response with object `"list"`, the given model name,
usage reporting zero prompt and total tokens, data of the same length
as the embedding list, and at each position `i` an entry with object
`"embedding"`, index `i`, and the `i`-th vector values verbatim. -/
theorem convertGeminiResponse_spec
    (geminiBatchResp : BatchEmbedContentsResponse) (model : String) :
    (ConvertGeminiResponseToOpenAI geminiBatchResp model).object = "list" ∧
    (ConvertGeminiResponseToOpenAI geminiBatchResp model).model = model ∧
    (ConvertGeminiResponseToOpenAI geminiBatchResp model).usage
      = { promptTokens := 0, totalTokens := 0 } ∧
    (ConvertGeminiResponseToOpenAI geminiBatchResp model).data.length
      = geminiBatchResp.embeddings.length ∧
    ∀ i e, geminiBatchResp.embeddings.get? i = some e →
      (ConvertGeminiResponseToOpenAI geminiBatchResp model).data.get? i
        = some { object := "embedding", embedding := e.values, index := i } := by
  refine ⟨rfl, rfl, rfl, embedDataLoop_length _ 0, fun i e hi => ?_⟩
  simpa using embedDataLoop_get geminiBatchResp.embeddings 0 i e hi

/-- Witness for C3 at a one-vector upstream result. -/
theorem convertGeminiResponse_spec_witness :
    (ConvertGeminiResponseToOpenAI { embeddings := [{ values := [5, 6] }] } "mod").object
      = "list" ∧
    (ConvertGeminiResponseToOpenAI { embeddings := [{ values := [5, 6] }] } "mod").model
      = "mod" ∧
    (ConvertGeminiResponseToOpenAI { embeddings := [{ values := [5, 6] }] } "mod").usage
      = { promptTokens := 0, totalTokens := 0 } ∧
    (ConvertGeminiResponseToOpenAI
        { embeddings := [{ values := [5, 6] }] } "mod").data.length = 1 ∧
    (ConvertGeminiResponseToOpenAI
        { embeddings := [{ values := [5, 6] }] } "mod").data.get? 0
      = some { object := "embedding", embedding := [5, 6], index := 0 } := by
  have h := convertGeminiResponse_spec { embeddings := [{ values := [5, 6] }] } "mod"
  exact ⟨h.1, h.2.1, h.2.2.1, h.2.2.2.1, h.2.2.2.2 0 { values := [5, 6] } (by decide)⟩

/-- C4 fails on the code: on the success path with a single-string
input (conversion succeeded, upstream succeeded), the batch-size
metric evaluates the single-return type assertion
`openAIReq.Input.([]interface{})` (main.go line 525), which fails for
a string and panics instead of returning the converted response. -/
theorem batchSize_assertion_panics_on_string :
    embeddingsHandler "POST"
        (some { input := .vString "hello", model := "m", encodingFormat := "" })
        1 0 (.ok { embeddings := [{ values := [1, 2] }] })
      = (.panicked, 1) := by decide

/-- C5 fails on the code: a sequence containing a non-string element
is rejected with the unsupported-input-type error, but the message
names `string` — the `%T` of the zero-valued variable left by the
failed assertion `t, ok := text.(string)` — not the type of the
offending element (`float64` for a JSON number). -/
theorem inputType_error_misreports_type :
    ConvertOpenAIRequestToGemini
        { input := .vArr [.vNumber 42], model := "m", encodingFormat := "" }
      = .error (.unsupportedInputType "string") ∧
    goTypeName (.vNumber 42) = "float64" ∧ ("string" : String) ≠ "float64" := by
  refine ⟨rfl, rfl, by decide⟩


/-- C6: conversion fails with the unsupported-encoding-format error
exactly when `encoding_format` is present (nonempty) and different
from `"float"`; requests with the field absent or equal to `"float"`
pass this validation, and through the handler any other value is
answered 400 Bad Request. -/
theorem encodingFormat_validation
    (openAIReq : EmbedRequest) {n : Nat} {counter : Int} (upstream : UpstreamResult)
    (hn : 1 ≤ n) (hn2 : (n : Int) < 2 ^ 31) (hc : 0 ≤ counter)
    (hc2 : counter + 1 < 2 ^ 31) :
    (ConvertOpenAIRequestToGemini openAIReq = .error .unsupportedEncodingFormat ↔
      openAIReq.encodingFormat ≠ "" ∧ openAIReq.encodingFormat ≠ "float") ∧
    (openAIReq.encodingFormat ≠ "" → openAIReq.encodingFormat ≠ "float" →
      (embeddingsHandler "POST" (some openAIReq) n counter upstream).1
        = .badRequest) := by
  have hiff : ConvertOpenAIRequestToGemini openAIReq
      = .error .unsupportedEncodingFormat ↔
      openAIReq.encodingFormat ≠ "" ∧ openAIReq.encodingFormat ≠ "float" := by
    constructor
    · intro h
      by_contra hcond
      rw [ConvertOpenAIRequestToGemini, if_neg hcond] at h
      cases hin : openAIReq.input <;> rw [hin] at h <;> simp [goTypeName] at h
      exact addContents_ne_format _ _ h
    · intro hcond
      rw [ConvertOpenAIRequestToGemini, if_pos hcond]
  refine ⟨hiff, fun h1 h2 => ?_⟩
  rw [embeddingsHandler_conv_error upstream (hiff.mpr ⟨h1, h2⟩) hn hn2 hc hc2]

/-- Witness for C6 at `encoding_format = "base64"`. -/
theorem encodingFormat_validation_witness :
    (ConvertOpenAIRequestToGemini
        { input := .vString "x", model := "m", encodingFormat := "base64" }
      = .error .unsupportedEncodingFormat ↔
      ("base64" : String) ≠ "" ∧ ("base64" : String) ≠ "float") ∧
    (("base64" : String) ≠ "" → ("base64" : String) ≠ "float" →
      (embeddingsHandler "POST"
          (some { input := .vString "x", model := "m", encodingFormat := "base64" })
          1 0 .err).1 = .badRequest) := by
  exact encodingFormat_validation
    { input := .vString "x", model := "m", encodingFormat := "base64" } .err
    (by decide) (by decide) (by decide) (by decide)

/-- C7: an input value that is neither a single string nor a sequence
(given the encoding-format validation passes) is rejected with an
unsupported-input-type error, and the embeddings endpoint answers 400
Bad Request. -/
theorem unsupported_shape_rejected
    (openAIReq : EmbedRequest) {n : Nat} {counter : Int} (upstream : UpstreamResult)
    (hstr : ∀ s, openAIReq.input ≠ .vString s)
    (harr : ∀ xs, openAIReq.input ≠ .vArr xs)
    (hef : openAIReq.encodingFormat = "" ∨ openAIReq.encodingFormat = "float")
    (hn : 1 ≤ n) (hn2 : (n : Int) < 2 ^ 31) (hc : 0 ≤ counter)
    (hc2 : counter + 1 < 2 ^ 31) :
    ConvertOpenAIRequestToGemini openAIReq
      = .error (.unsupportedInputType (goTypeName openAIReq.input)) ∧
    (embeddingsHandler "POST" (some openAIReq) n counter upstream).1
      = .badRequest := by
  have hconv : ConvertOpenAIRequestToGemini openAIReq
      = .error (.unsupportedInputType (goTypeName openAIReq.input)) := by
    rw [ConvertOpenAIRequestToGemini,
      if_neg (by rcases hef with h | h <;> simp [h])]
    cases hin : openAIReq.input with
    | vString s => exact absurd hin (hstr s)
    | vArr xs => exact absurd hin (harr xs)
    | vNull => rfl
    | vBool b => rfl
    | vNumber num => rfl
    | vObj => rfl
  refine ⟨hconv, ?_⟩
  rw [embeddingsHandler_conv_error upstream hconv hn hn2 hc hc2]


/-- Witness for C7 at the numeric input `5`. -/
theorem unsupported_shape_rejected_witness :
    ConvertOpenAIRequestToGemini
        { input := .vNumber 5, model := "m", encodingFormat := "" }
      = .error (.unsupportedInputType (goTypeName (GoValue.vNumber 5))) ∧
    (embeddingsHandler "POST"
        (some { input := .vNumber 5, model := "m", encodingFormat := "" })
        1 0 .err).1 = .badRequest := by
  exact unsupported_shape_rejected
    { input := .vNumber 5, model := "m", encodingFormat := "" } .err
    (fun s h => by cases h) (fun xs h => by cases h) (Or.inl rfl)
    (by decide) (by decide) (by decide) (by decide)

/-- The catalog-draining loop is append-accumulating filter-map. -/
lemma modelsLoop_eq (catalog : List ModelInfo) (acc : List ModelResponseData) :
    modelsLoop catalog acc
      = acc ++ (catalog.filter
          (fun m => m.supportedGenerationMethods.contains "embedContent")).map
        (fun m =>
          { object := "model", id := m.name, created := 0, ownedBy := "google" }) := by
  induction catalog generalizing acc with
  | nil => simp [modelsLoop]
  | cons m rest ih =>
    by_cases hm : "embedContent" ∈ m.supportedGenerationMethods
    · simp [modelsLoop, hm, ih, List.filter_cons]
    · simp [modelsLoop, hm, ih, List.filter_cons]

/-- C8: for every upstream catalog, the models handler returns object
`"list"` wrapping exactly the models whose supported generation
methods contain `"embedContent"`, in catalog order, each mapped to
object `"model"`, the upstream resource name as `id`, `created = 0`,
and `owned_by = "google"`. -/
theorem modelsHandler_filter_map (catalog : List ModelInfo) :
    modelsHandler "GET" (.ok catalog)
      = .ok { object := "list"
              data := (catalog.filter
                  (fun m => m.supportedGenerationMethods.contains "embedContent")).map
                (fun m =>
                  { object := "model", id := m.name, created := 0,
                    ownedBy := "google" }) } := by
  rw [modelsHandler, if_neg (by decide)]
  rw [modelsLoop_eq]
  rfl

/-- C9: a single-string input converts to a batch containing exactly
that one text item, and the converted response for the corresponding
one-vector upstream result contains exactly one embedding at
index 0. -/
theorem single_string_conversion
    (s m ef : String) (e : ContentEmbedding) (hef : ef = "" ∨ ef = "float") :
    ConvertOpenAIRequestToGemini
        { input := .vString s, model := m, encodingFormat := ef }
      = .ok [s] ∧
    (ConvertGeminiResponseToOpenAI { embeddings := [e] } m).data
      = [{ object := "embedding", embedding := e.values, index := 0 }] := by
  constructor
  · rw [ConvertOpenAIRequestToGemini,
      if_neg (by rcases hef with h | h <;> simp [h])]
  · rfl

/-- Witness for C9 at the input string `"hi"`. -/
theorem single_string_conversion_witness :
    ConvertOpenAIRequestToGemini
        { input := .vString "hi", model := "m", encodingFormat := "float" }
      = .ok ["hi"] ∧
    (ConvertGeminiResponseToOpenAI { embeddings := [{ values := [7] }] } "m").data
      = [{ object := "embedding", embedding := [7], index := 0 }] :=
  single_string_conversion "hi" "m" "float" { values := [7] } (Or.inr rfl)

/-- C10: a request body whose `input` field is absent or JSON null
decodes to a nil interface value; conversion rejects it with an
unsupported-input-type error (the `%T` of nil prints `<nil>`), so a
body carrying only a model is answered 400 Bad Request, not 200 with
empty data. -/
theorem nil_input_rejected
    (m : String) {n : Nat} {counter : Int} (upstream : UpstreamResult)
    (hn : 1 ≤ n) (hn2 : (n : Int) < 2 ^ 31) (hc : 0 ≤ counter)
    (hc2 : counter + 1 < 2 ^ 31) :
    ConvertOpenAIRequestToGemini { input := .vNull, model := m, encodingFormat := "" }
      = .error (.unsupportedInputType "<nil>") ∧
    (embeddingsHandler "POST"
        (some { input := .vNull, model := m, encodingFormat := "" })
        n counter upstream).1 = .badRequest := by
  have hconv : ConvertOpenAIRequestToGemini
      { input := .vNull, model := m, encodingFormat := "" }
      = .error (.unsupportedInputType "<nil>") := rfl
  refine ⟨hconv, ?_⟩
  rw [embeddingsHandler_conv_error upstream hconv hn hn2 hc hc2]

/-- Witness for C10 at model `"m"`. -/
theorem nil_input_rejected_witness :
    ConvertOpenAIRequestToGemini
        { input := .vNull, model := "m", encodingFormat := "" }
      = .error (.unsupportedInputType "<nil>") ∧
    (embeddingsHandler "POST"
        (some { input := .vNull, model := "m", encodingFormat := "" })
        1 0 .err).1 = .badRequest :=
  nil_input_rejected "m" .err (by decide) (by decide) (by decide) (by decide)

